import Mathlib

/-! Verification development for Resource-Monitor-Studio.

The repository's visible surface is the launcher `src/demo_simple.py`,
six lines that import `app`, guard on `__name__ == "__main__"`, and in
the guarded block call `init_db()`, `start_sampler()` and
`app.run(...)` in that order.  The `app` module itself (Store, Sampler,
Lifecycle Controller, Query Facade) is not part of the repository
surface, so those components are modelled from the specification; each
such definition says so in its doc comment. -/

/-- The top-level calls the launcher `src/demo_simple.py` can make. -/
inductive LaunchEvent
  | initDb
  | startSampler
  | appRun
deriving DecidableEq

/-- Embedding of `src/demo_simple.py`: the module body runs the guarded
block only when executed as the main program, in which case it calls
`init_db()`, then `start_sampler()`, then `app.run(...)`; importing the
module (`isMain = false`) runs none of them. -/
def demoSimpleTrace (isMain : Bool) : List LaunchEvent :=
  if isMain then
    [LaunchEvent.initDb, LaunchEvent.startSampler, LaunchEvent.appRun]
  else []

/-- Modelled from the spec: an Observation (section 3) is an immutable
timestamped measurement; the `app` module defining it is absent from
src/. -/
structure Observation where
  collected_at : Nat
  source : String
  value : Int
deriving DecidableEq

/-- Modelled from the spec: the Store's state - whether `init()` has
created the schema, and the committed rows (section 4.1). -/
structure StoreState where
  schemaReady : Bool
  rows : List Observation
deriving DecidableEq

/-- Modelled from the spec: `Store.init()` creates the schema if absent
and never touches existing rows; later calls are no-ops (section 4.1). -/
def Store.init (s : StoreState) : StoreState :=
  { s with schemaReady := true }

/-- Modelled from the spec: `Store.append` durably commits one whole
Observation at a time (atomic row commit, section 4.1). -/
def Store.append (s : StoreState) (o : Observation) : StoreState :=
  { s with rows := s.rows ++ [o] }

/-- Timestamp comparison used to order query results. -/
def obsLe (a b : Observation) : Bool :=
  decide (a.collected_at ≤ b.collected_at)

/-- The query filter: same source and `collected_at` within the closed
range. -/
def inRange (src : String) (t0 t1 : Nat) (o : Observation) : Bool :=
  o.source == src && decide (t0 ≤ o.collected_at) && decide (o.collected_at ≤ t1)

/-- Modelled from the spec: `Store.query` returns the Observations of
the source whose `collected_at` lies in `[t0, t1]`, ordered by
`collected_at` ascending (section 4.1). -/
def Store.query (s : StoreState) (src : String) (t0 t1 : Nat) : List Observation :=
  (s.rows.filter (inRange src t0 t1)).mergeSort obsLe

/-- Modelled from the spec: the Query Facade rejects a malformed range
(end before start) with `QueryError` and otherwise reads through to
`Store.query` (section 4.4). -/
def QueryFacade.get (s : StoreState) (src : String) (t0 t1 : Nat) :
    Except String (List Observation) :=
  if t1 < t0 then Except.error "QueryError"
  else Except.ok (Store.query s src t0 t1)

/-- Modelled from the spec: the lifecycle ordering error raised when
`start()` precedes `init()` (section 7). -/
inductive LcError
  | notInitializedError
deriving DecidableEq

/-- Modelled from the spec: Lifecycle Controller state - whether
`init()` has run, and how many sampler loop instances are active
(sections 3 and 4.3). -/
structure LcState where
  inited : Bool
  loops : Nat
deriving DecidableEq

/-- Modelled from the spec: at process start nothing is set up and no
loop runs. -/
def LcState.initial : LcState :=
  { inited := false, loops := 0 }

/-- Modelled from the spec: `Lifecycle.init()` prepares the Store schema
(section 4.3). -/
def Lifecycle.init (s : LcState) : LcState :=
  { s with inited := true }

/-- Modelled from the spec: `start()` fails with `NotInitializedError`
before `init()`; if already running it returns success without spawning
a second loop; otherwise it spawns the single sampler loop
(section 4.3). -/
def Lifecycle.start (s : LcState) : Except LcError LcState :=
  if s.inited = false then Except.error LcError.notInitializedError
  else if 1 ≤ s.loops then Except.ok s
  else Except.ok { s with loops := 1 }

/-- Modelled from the spec: `stop()` signals the loop to exit
(section 4.3). -/
def Lifecycle.stop (s : LcState) : LcState :=
  { s with loops := 0 }

/-- One bootstrap call against the Lifecycle Controller. -/
inductive LcOp
  | opInit
  | opStart
  | opStop
deriving DecidableEq

/-- Modelled from the spec: apply one lifecycle call; a failing
`start()` leaves the state unchanged. -/
def Lifecycle.applyOp (s : LcState) : LcOp → LcState
  | LcOp.opInit => Lifecycle.init s
  | LcOp.opStart =>
      match Lifecycle.start s with
      | Except.ok s2 => s2
      | Except.error _ => s
  | LcOp.opStop => Lifecycle.stop s

/-- Modelled from the spec: the lifecycle state reached by a sequence of
calls from the initial state. -/
def Lifecycle.run (ops : List LcOp) : LcState :=
  ops.foldl Lifecycle.applyOp LcState.initial

/-- Modelled from the spec: a SampleJob is a named collection function
plus its cadence; `nextDue` tracks its own next due time
(sections 3 and 4.2). -/
structure SampleJob where
  name : String
  interval : Nat
  nextDue : Nat
deriving DecidableEq

/-- Modelled from the spec: the outcome of one collection call, bounded
by a timeout (section 4.2). -/
inductive CollectResult
  | ok (v : Int)
  | failure (e : String)
  | timeout
deriving DecidableEq

/-- Modelled from the spec: process-wide SamplerState (section 3). -/
structure SamplerState where
  running : Bool
  lastTickAt : Nat
  lastError : Option String
deriving DecidableEq

/-- The error text recorded in `last_error` for a failed collection. -/
def errText : CollectResult → Option String
  | CollectResult.ok _ => none
  | CollectResult.failure e => some e
  | CollectResult.timeout => some "CollectionTimeout"

/-- Modelled from the spec: run one job inside a tick (section 4.2).  A
due job is collected; on success the Observation is appended, on
failure (error or timeout) `last_error` is updated and the tick
continues; the job's next due time always advances by its interval from
the previous due time, never from `now`. -/
def runJob (collect : String → CollectResult) (now : Nat)
    (store : StoreState) (st : SamplerState) (j : SampleJob) :
    StoreState × SamplerState × SampleJob :=
  if j.nextDue ≤ now then
    match collect j.name with
    | CollectResult.ok v =>
        (Store.append store { collected_at := now, source := j.name, value := v },
         st, { j with nextDue := j.nextDue + j.interval })
    | r =>
        (store, { st with lastError := errText r },
         { j with nextDue := j.nextDue + j.interval })
  else
    (store, st, j)

/-- Modelled from the spec: `run_tick` walks the job list in order; one
job's failure never prevents later jobs from running, and the tick
always returns to the loop (section 4.2). -/
def run_tick (collect : String → CollectResult) (now : Nat)
    (store : StoreState) (st : SamplerState) :
    List SampleJob → StoreState × SamplerState × List SampleJob
  | [] => (store, { st with lastTickAt := now }, [])
  | j :: rest =>
      let r := runJob collect now store st j
      let rr := run_tick collect now r.1 r.2.1 rest
      (rr.1, rr.2.1, r.2.2 :: rr.2.2)

/-- Modelled from the spec: the sampler loop runs one tick at each time
in the list (section 4.2). -/
def runTicks (collect : String → CollectResult)
    (store : StoreState) (st : SamplerState) (jobs : List SampleJob) :
    List Nat → StoreState × SamplerState × List SampleJob
  | [] => (store, st, jobs)
  | now :: ts =>
      let r := run_tick collect now store st jobs
      runTicks collect r.1 r.2.1 r.2.2 ts

/-- Modelled from the spec: one atomic step against the Store - the
sampler appends one whole committed row, or a reader issues a query
(sections 4.1 and 5). -/
inductive StoreOp
  | doAppend (o : Observation)
  | doQuery (src : String) (t0 t1 : Nat)
deriving DecidableEq

/-- Modelled from the spec: run an interleaving of append and query
calls against the store, collecting every query result as seen at its
point in the interleaving. -/
def runOps (s : StoreState) : List StoreOp → StoreState × List (List Observation)
  | [] => (s, [])
  | StoreOp.doAppend o :: rest => runOps (Store.append s o) rest
  | StoreOp.doQuery src t0 t1 :: rest =>
      let r := runOps s rest
      (r.1, Store.query s src t0 t1 :: r.2)

/-- The Observations committed by the append operations of a trace. -/
def appendsOf (ops : List StoreOp) : List Observation :=
  ops.filterMap fun op =>
    match op with
    | StoreOp.doAppend o => some o
    | _ => none

/-- Modelled from the spec: the empty store right after schema
creation. -/
def emptyStore : StoreState :=
  { schemaReady := true, rows := [] }

/-- The "no missed ticks" condition: each tick time is at least the
job's current due time, which advances by the interval per tick. -/
def keepsDue (t0 I : Nat) : List Nat → Bool
  | [] => true
  | now :: ts => decide (t0 ≤ now) && keepsDue (t0 + I) I ts

/-- A concrete three-row store used to exercise the query contract. -/
def sampleStore : StoreState :=
  { schemaReady := true,
    rows := [{ collected_at := 5, source := "cpu", value := 1 },
             { collected_at := 2, source := "cpu", value := 2 },
             { collected_at := 3, source := "mem", value := 3 }] }

/-- A concrete collection function where only the "bad" job fails. -/
def wCollect (n : String) : CollectResult :=
  if n = "bad" then CollectResult.timeout else CollectResult.ok 7

/-- Three concrete jobs, all due at time 0; the middle one fails. -/
def wJobs : List SampleJob :=
  [{ name := "cpu", interval := 5, nextDue := 0 },
   { name := "bad", interval := 5, nextDue := 0 },
   { name := "mem", interval := 5, nextDue := 0 }]

/-- A concrete running sampler state with no recorded error. -/
def wSt : SamplerState :=
  { running := true, lastTickAt := 0, lastError := none }

/-- Modelled from the spec: append against a fallible medium.  The
medium is a predicate saying whether the durable commit of a given
Observation succeeds; on success the whole row is committed, otherwise
the call fails with WriteError and the store is unchanged
(sections 4.1 and 7). -/
def Store.tryAppend (writeOk : Observation → Bool) (s : StoreState)
    (o : Observation) : Except String StoreState :=
  if writeOk o then Except.ok (Store.append s o) else Except.error "WriteError"

/-- A job as a tick leaves it: advanced by one interval when due,
untouched otherwise.  A due job whose entry advanced was executed in
the tick, whatever the outcome of its collection and write. -/
def advanceIfDue (now : Nat) (j : SampleJob) : SampleJob :=
  if j.nextDue ≤ now then { j with nextDue := j.nextDue + j.interval } else j

/-- Modelled from the spec: run one job inside a tick against a fallible
write medium (sections 4.1, 4.2 and 7).  A due job is collected; on
success its Observation is appended via tryAppend, and a WriteError is
recorded in last_error with the tick continuing; a collection failure
(error or timeout) is recorded likewise; in every case the due job was
executed: its next due time advances by its interval. -/
def runJobW (collect : String → CollectResult) (writeOk : Observation → Bool)
    (now : Nat) (store : StoreState) (st : SamplerState) (j : SampleJob) :
    StoreState × SamplerState × SampleJob :=
  if j.nextDue ≤ now then
    match collect j.name with
    | CollectResult.ok v =>
        match Store.tryAppend writeOk store
            { collected_at := now, source := j.name, value := v } with
        | Except.ok store2 =>
            (store2, st, { j with nextDue := j.nextDue + j.interval })
        | Except.error e =>
            (store, { st with lastError := some e },
             { j with nextDue := j.nextDue + j.interval })
    | r =>
        (store, { st with lastError := errText r },
         { j with nextDue := j.nextDue + j.interval })
  else
    (store, st, j)

/-- Modelled from the spec: `run_tick` against a fallible write medium;
the reliable-medium tick `run_tick` is the special case in which every
write succeeds.  One job's failure - of collection or of write - never
prevents later jobs from running, and the tick always returns to the
loop (sections 4.2 and 7). -/
def run_tickW (collect : String → CollectResult) (writeOk : Observation → Bool)
    (now : Nat) (store : StoreState) (st : SamplerState) :
    List SampleJob → StoreState × SamplerState × List SampleJob
  | [] => (store, { st with lastTickAt := now }, [])
  | j :: rest =>
      let r := runJobW collect writeOk now store st j
      let rr := run_tickW collect writeOk now r.1 r.2.1 rest
      (rr.1, rr.2.1, r.2.2 :: rr.2.2)

/-- A concrete fallible medium: writes of "mem" rows fail. -/
def wWriteOk (o : Observation) : Bool :=
  !(o.source == "mem")

/-- The timestamp order is transitive. -/
theorem obsLe_trans (a b c : Observation) (hab : obsLe a b = true)
    (hbc : obsLe b c = true) : obsLe a c = true := by
  simp only [obsLe, decide_eq_true_eq] at *
  omega

/-- The timestamp order is total. -/
theorem obsLe_total (a b : Observation) : (obsLe a b || obsLe b a) = true := by
  simp only [obsLe, Bool.or_eq_true, decide_eq_true_eq]
  omega

/-- Membership in a query result is exactly membership in the store with
the source and range conditions. -/
theorem mem_query (s : StoreState) (src : String) (t0 t1 : Nat) (o : Observation) :
    o ∈ Store.query s src t0 t1 ↔
      o ∈ s.rows ∧ o.source = src ∧ t0 ≤ o.collected_at ∧ o.collected_at ≤ t1 := by
  unfold Store.query
  rw [(List.mergeSort_perm (s.rows.filter (inRange src t0 t1)) obsLe).mem_iff,
    List.mem_filter]
  simp [inRange, and_assoc]

/-- C1: executed as the main program, the launcher calls init_db exactly
once, then start_sampler exactly once, and only then begins serving HTTP
traffic: its call trace is exactly init, start, serve, so no other
ordering of the three calls occurs. -/
theorem launcher_calls_in_order :
    demoSimpleTrace true =
      [LaunchEvent.initDb, LaunchEvent.startSampler, LaunchEvent.appRun] ∧
    (demoSimpleTrace true).count LaunchEvent.initDb = 1 ∧
    (demoSimpleTrace true).count LaunchEvent.startSampler = 1 ∧
    (demoSimpleTrace true).count LaunchEvent.appRun = 1 := by
  decide

/-- C10: importing the launcher module (not run as the main program)
performs none of the three calls: the guarded block contributes nothing
to the trace. -/
theorem import_performs_no_calls :
    demoSimpleTrace false = [] ∧
    ∀ e : LaunchEvent, e ∉ demoSimpleTrace false := by
  decide

/-- C3: Store.init is idempotent: for every N >= 1, N calls equal one
call, the schema is present afterwards, and no rows are lost. -/
theorem store_init_idempotent (s : StoreState) (n : Nat) (h : 1 ≤ n) :
    Store.init^[n] s = Store.init s ∧
    (Store.init s).schemaReady = true ∧
    (Store.init s).rows = s.rows := by
  obtain ⟨m, rfl⟩ : ∃ m, n = m + 1 := ⟨n - 1, by omega⟩
  refine ⟨?_, rfl, rfl⟩
  induction m with
  | zero => rfl
  | succ k ih =>
    rw [Function.iterate_succ_apply', ih (by omega)]
    rfl

/-- Witness for C3 at a concrete store and N = 3. -/
theorem store_init_idempotent_witness :
    Store.init^[3] { schemaReady := false, rows := [] } =
      Store.init { schemaReady := false, rows := [] } ∧
    (Store.init { schemaReady := false, rows := [] }).schemaReady = true ∧
    (Store.init { schemaReady := false, rows := [] }).rows =
      ({ schemaReady := false, rows := [] } : StoreState).rows :=
  store_init_idempotent { schemaReady := false, rows := [] } 3 (by decide)

/-- C8: calling start() before init() fails with NotInitializedError. -/
theorem start_before_init_fails (s : LcState) (h : s.inited = false) :
    Lifecycle.start s = Except.error LcError.notInitializedError := by
  simp [Lifecycle.start, h]

/-- Witness for C8 at the initial process state. -/
theorem start_before_init_fails_witness :
    Lifecycle.start LcState.initial = Except.error LcError.notInitializedError :=
  start_before_init_fails LcState.initial rfl

/-- C9: a well-formed time range containing no stored Observations of
the source yields `ok []` from the Query Facade: an empty sequence, not
an error. -/
theorem query_empty_range_ok (s : StoreState) (src : String) (t0 t1 : Nat)
    (hwf : t0 ≤ t1)
    (hnone : ∀ o ∈ s.rows,
      ¬(o.source = src ∧ t0 ≤ o.collected_at ∧ o.collected_at ≤ t1)) :
    QueryFacade.get s src t0 t1 = Except.ok [] := by
  have hq : Store.query s src t0 t1 = [] := by
    refine List.eq_nil_iff_forall_not_mem.mpr fun o ho => ?_
    rw [mem_query] at ho
    exact hnone o ho.1 ⟨ho.2.1, ho.2.2.1, ho.2.2.2⟩
  unfold QueryFacade.get
  rw [if_neg (by omega), hq]

/-- Witness for C9: one cpu row at time 1, queried over [10, 20]. -/
theorem query_empty_range_ok_witness :
    QueryFacade.get
      { schemaReady := true,
        rows := [{ collected_at := 1, source := "cpu", value := 42 }] }
      "cpu" 10 20 = Except.ok [] :=
  query_empty_range_ok _ "cpu" 10 20 (by decide) (by decide)

/-- C2: for a source whose stored Observations have pairwise distinct
timestamps, query returns exactly those with collected_at in [t0, t1],
in strictly ascending collected_at order, and the result is finite: its
length is bounded by the store's row count. -/
theorem query_exact_sorted_finite (s : StoreState) (src : String) (t0 t1 : Nat)
    (hdist : s.rows.Pairwise
      (fun a b => a.source = src → b.source = src →
        a.collected_at ≠ b.collected_at)) :
    (∀ o, o ∈ Store.query s src t0 t1 ↔
      o ∈ s.rows ∧ o.source = src ∧ t0 ≤ o.collected_at ∧ o.collected_at ≤ t1) ∧
    (Store.query s src t0 t1).Pairwise
      (fun a b => a.collected_at < b.collected_at) ∧
    (Store.query s src t0 t1).length ≤ s.rows.length := by
  refine ⟨fun o => mem_query s src t0 t1 o, ?_, ?_⟩
  · have hperm := List.mergeSort_perm (s.rows.filter (inRange src t0 t1)) obsLe
    have hsor : (Store.query s src t0 t1).Pairwise (fun a b => obsLe a b = true) :=
      List.sorted_mergeSort obsLe_trans obsLe_total (s.rows.filter (inRange src t0 t1))
    have hne0 : (s.rows.filter (inRange src t0 t1)).Pairwise
        (fun a b => a.source = src → b.source = src →
          a.collected_at ≠ b.collected_at) := hdist.filter _
    have hne1 : (s.rows.filter (inRange src t0 t1)).Pairwise
        (fun a b => a.collected_at ≠ b.collected_at) := by
      refine hne0.imp_of_mem fun ha hb h => ?_
      have ha2 := (List.mem_filter.mp ha).2
      have hb2 := (List.mem_filter.mp hb).2
      simp only [inRange, Bool.and_eq_true, beq_iff_eq] at ha2 hb2
      exact h ha2.1.1 hb2.1.1
    have hne2 : (Store.query s src t0 t1).Pairwise
        (fun a b => a.collected_at ≠ b.collected_at) :=
      (List.Perm.pairwise_iff (fun h => h.symm) hperm).mpr hne1
    exact (hsor.and hne2).imp fun h =>
      lt_of_le_of_ne (by simpa [obsLe] using h.1) h.2
  · have hperm := List.mergeSort_perm (s.rows.filter (inRange src t0 t1)) obsLe
    calc (Store.query s src t0 t1).length
        = (s.rows.filter (inRange src t0 t1)).length := hperm.length_eq
      _ ≤ s.rows.length := List.length_filter_le _ _

/-- Witness for C2 at a three-row store queried for cpu over [1, 9]. -/
theorem query_exact_sorted_finite_witness :
    (∀ o, o ∈ Store.query sampleStore "cpu" 1 9 ↔
      o ∈ sampleStore.rows ∧
        o.source = "cpu" ∧ 1 ≤ o.collected_at ∧ o.collected_at ≤ 9) ∧
    (Store.query sampleStore "cpu" 1 9).Pairwise
      (fun a b => a.collected_at < b.collected_at) ∧
    (Store.query sampleStore "cpu" 1 9).length ≤ sampleStore.rows.length :=
  query_exact_sorted_finite sampleStore "cpu" 1 9 (by decide)

/-- Every lifecycle call preserves "at most one active loop". -/
theorem loops_invariant (ops : List LcOp) (s : LcState) (hs : s.loops ≤ 1) :
    (ops.foldl Lifecycle.applyOp s).loops ≤ 1 := by
  induction ops generalizing s with
  | nil => exact hs
  | cons op rest ih =>
    refine ih _ ?_
    cases op with
    | opInit => exact hs
    | opStart =>
      simp only [Lifecycle.applyOp, Lifecycle.start]
      by_cases h1 : s.inited = false
      · simp [h1, hs]
      · by_cases h2 : 1 ≤ s.loops
        · simp [h1, h2, hs]
        · simp [h1, h2]
    | opStop => simp [Lifecycle.applyOp, Lifecycle.stop]

/-- C4: every lifecycle state reachable from the initial state by
init/start/stop calls has at most one active sampler loop instance, and
start() on an already-running state returns success with the very same
state: no second loop is spawned. -/
theorem start_idempotent_single_loop (ops : List LcOp) (s : LcState)
    (hinited : s.inited = true) (hrun : 1 ≤ s.loops) :
    (Lifecycle.run ops).loops ≤ 1 ∧ Lifecycle.start s = Except.ok s := by
  constructor
  · exact loops_invariant ops LcState.initial (by decide)
  · simp [Lifecycle.start, hinited, hrun]

/-- Witness for C4: init then two starts; start on a running state. -/
theorem start_idempotent_single_loop_witness :
    (Lifecycle.run [LcOp.opInit, LcOp.opStart, LcOp.opStart]).loops ≤ 1 ∧
    Lifecycle.start { inited := true, loops := 1 } =
      Except.ok { inited := true, loops := 1 } :=
  start_idempotent_single_loop [LcOp.opInit, LcOp.opStart, LcOp.opStart]
    { inited := true, loops := 1 } rfl (by decide)

/-- runJobW never changes the running flag, whatever the outcome of the
collection and of the write. -/
theorem runJobW_running (collect : String → CollectResult)
    (writeOk : Observation → Bool) (now : Nat)
    (store : StoreState) (st : SamplerState) (j : SampleJob) :
    (runJobW collect writeOk now store st j).2.1.running = st.running := by
  unfold runJobW Store.tryAppend
  split
  · cases hc : collect j.name with
    | ok v =>
      by_cases hw : writeOk { collected_at := now, source := j.name, value := v } = true
      · simp [hw]
      · simp [hw]
    | failure e => rfl
    | timeout => rfl
  · rfl

/-- runJobW only ever appends committed rows. -/
theorem runJobW_rows_mono (collect : String → CollectResult)
    (writeOk : Observation → Bool) (now : Nat)
    (store : StoreState) (st : SamplerState) (j : SampleJob) (o : Observation)
    (ho : o ∈ store.rows) :
    o ∈ (runJobW collect writeOk now store st j).1.rows := by
  unfold runJobW Store.tryAppend
  split
  · cases hc : collect j.name with
    | ok v =>
      by_cases hw : writeOk { collected_at := now, source := j.name, value := v } = true
      · simp [hw, Store.append, ho]
      · simp [hw, ho]
    | failure e => exact ho
    | timeout => exact ho
  · exact ho

/-- runJobW never clears a recorded error. -/
theorem runJobW_lastError_isSome (collect : String → CollectResult)
    (writeOk : Observation → Bool) (now : Nat)
    (store : StoreState) (st : SamplerState) (j : SampleJob)
    (h : st.lastError.isSome = true) :
    ((runJobW collect writeOk now store st j).2.1.lastError).isSome = true := by
  unfold runJobW Store.tryAppend
  split
  · cases hc : collect j.name with
    | ok v =>
      by_cases hw : writeOk { collected_at := now, source := j.name, value := v } = true
      · simp [hw, h]
      · simp [hw]
    | failure e => simp [errText]
    | timeout => simp [errText]
  · exact h

/-- Whatever the outcome of its collection and write, runJobW executes a
due job: the returned job is advanceIfDue of the input. -/
theorem runJobW_job (collect : String → CollectResult)
    (writeOk : Observation → Bool) (now : Nat)
    (store : StoreState) (st : SamplerState) (j : SampleJob) :
    (runJobW collect writeOk now store st j).2.2 = advanceIfDue now j := by
  unfold runJobW advanceIfDue Store.tryAppend
  by_cases hdue : j.nextDue ≤ now
  · rw [if_pos hdue, if_pos hdue]
    cases hc : collect j.name with
    | ok v =>
      by_cases hw : writeOk { collected_at := now, source := j.name, value := v } = true
      · simp [hw]
      · simp [hw]
    | failure e => rfl
    | timeout => rfl
  · rw [if_neg hdue, if_neg hdue]

/-- A tick against any write medium never changes the running flag. -/
theorem run_tickW_running (collect : String → CollectResult)
    (writeOk : Observation → Bool) (now : Nat)
    (store : StoreState) (st : SamplerState) (jobs : List SampleJob) :
    (run_tickW collect writeOk now store st jobs).2.1.running = st.running := by
  induction jobs generalizing store st with
  | nil => rfl
  | cons j rest ih =>
    show (run_tickW collect writeOk now (runJobW collect writeOk now store st j).1
        (runJobW collect writeOk now store st j).2.1 rest).2.1.running = st.running
    rw [ih]
    exact runJobW_running collect writeOk now store st j

/-- A tick against any write medium only ever appends committed rows. -/
theorem run_tickW_rows_mono (collect : String → CollectResult)
    (writeOk : Observation → Bool) (now : Nat)
    (store : StoreState) (st : SamplerState) (jobs : List SampleJob)
    (o : Observation) (ho : o ∈ store.rows) :
    o ∈ (run_tickW collect writeOk now store st jobs).1.rows := by
  induction jobs generalizing store st with
  | nil => exact ho
  | cons j rest ih =>
    exact ih _ _ (runJobW_rows_mono collect writeOk now store st j o ho)

/-- A tick against any write medium never clears a recorded error. -/
theorem run_tickW_lastError_isSome (collect : String → CollectResult)
    (writeOk : Observation → Bool) (now : Nat)
    (store : StoreState) (st : SamplerState) (jobs : List SampleJob)
    (h : st.lastError.isSome = true) :
    ((run_tickW collect writeOk now store st jobs).2.1.lastError).isSome = true := by
  induction jobs generalizing store st with
  | nil => exact h
  | cons j rest ih =>
    exact ih _ _ (runJobW_lastError_isSome collect writeOk now store st j h)

/-- A tick executes every due job and leaves the rest untouched: its
output job list is the pointwise advance of the input list, whatever
failures occur along the way. -/
theorem run_tickW_jobs (collect : String → CollectResult)
    (writeOk : Observation → Bool) (now : Nat)
    (store : StoreState) (st : SamplerState) (jobs : List SampleJob) :
    (run_tickW collect writeOk now store st jobs).2.2 =
      jobs.map (advanceIfDue now) := by
  induction jobs generalizing store st with
  | nil => rfl
  | cons j rest ih =>
    show (runJobW collect writeOk now store st j).2.2 ::
        (run_tickW collect writeOk now (runJobW collect writeOk now store st j).1
          (runJobW collect writeOk now store st j).2.1 rest).2.2 =
      (j :: rest).map (advanceIfDue now)
    rw [ih, runJobW_job, List.map_cons]

/-- A due job whose step fails - collection failure or write failure -
leaves an error recorded after the tick. -/
theorem run_tickW_fail_recorded (collect : String → CollectResult)
    (writeOk : Observation → Bool) (now : Nat)
    (store : StoreState) (st : SamplerState) (jobs : List SampleJob)
    (jf : SampleJob) (hjf : jf ∈ jobs) (hdue : jf.nextDue ≤ now)
    (hfail : (∀ v, collect jf.name ≠ CollectResult.ok v) ∨
      (∃ v, collect jf.name = CollectResult.ok v ∧
        writeOk { collected_at := now, source := jf.name, value := v } = false)) :
    ((run_tickW collect writeOk now store st jobs).2.1.lastError).isSome = true := by
  induction jobs generalizing store st with
  | nil => cases hjf
  | cons j rest ih =>
    rcases List.mem_cons.mp hjf with rfl | hmem
    · show ((run_tickW collect writeOk now (runJobW collect writeOk now store st jf).1
          (runJobW collect writeOk now store st jf).2.1 rest).2.1.lastError).isSome = true
      apply run_tickW_lastError_isSome
      unfold runJobW Store.tryAppend
      rw [if_pos hdue]
      rcases hfail with hcf | ⟨v, hok, hw⟩
      · cases hc : collect jf.name with
        | ok v => exact absurd hc (hcf v)
        | failure e => simp [errText]
        | timeout => simp [errText]
      · rw [hok]
        simp [hw]
    · exact ih _ _ hmem

/-- A due job whose collection and write both succeed has its
Observation committed by the tick. -/
theorem run_tickW_success_committed (collect : String → CollectResult)
    (writeOk : Observation → Bool) (now : Nat)
    (store : StoreState) (st : SamplerState) (jobs : List SampleJob)
    (j : SampleJob) (v : Int) (hj : j ∈ jobs) (hdue : j.nextDue ≤ now)
    (hok : collect j.name = CollectResult.ok v)
    (hw : writeOk { collected_at := now, source := j.name, value := v } = true) :
    ({ collected_at := now, source := j.name, value := v } : Observation)
      ∈ (run_tickW collect writeOk now store st jobs).1.rows := by
  induction jobs generalizing store st with
  | nil => cases hj
  | cons a rest ih =>
    rcases List.mem_cons.mp hj with rfl | hmem
    · show ({ collected_at := now, source := j.name, value := v } : Observation)
          ∈ (run_tickW collect writeOk now (runJobW collect writeOk now store st j).1
            (runJobW collect writeOk now store st j).2.1 rest).1.rows
      apply run_tickW_rows_mono
      unfold runJobW Store.tryAppend
      rw [if_pos hdue, hok]
      simp [hw, Store.append]
    · exact ih _ _ hmem

/-- With a reliable medium every write succeeds and runJobW degenerates
to the reliable-medium runJob. -/
theorem runJobW_reliable (collect : String → CollectResult) (now : Nat)
    (store : StoreState) (st : SamplerState) (j : SampleJob) :
    runJobW collect (fun _ => true) now store st j =
      runJob collect now store st j := by
  unfold runJobW runJob Store.tryAppend
  split
  · cases hc : collect j.name <;> simp
  · rfl

/-- C5: within a single tick, if a due job's step fails - its collection
fails by timeout or error, or its write fails with WriteError - the
failure is recorded in SamplerState.last_error; every due job of the
tick is still executed (the tick's output advances each due job by its
interval, whatever the outcome) and every due job whose collection and
write both succeed has its Observation committed; for every collection
function and every write medium the tick returns with the running flag
intact, and a query failure is reported as a returned QueryError: no
steady-state failure (write, collection, query) terminates the
background loop or the process. -/
theorem tick_isolates_failures (collect : String → CollectResult)
    (writeOk : Observation → Bool) (now : Nat)
    (store : StoreState) (st : SamplerState) (jobs : List SampleJob)
    (jf : SampleJob) (hjf : jf ∈ jobs) (hdue : jf.nextDue ≤ now)
    (hfail : (∀ v, collect jf.name ≠ CollectResult.ok v) ∨
      (∃ v, collect jf.name = CollectResult.ok v ∧
        writeOk { collected_at := now, source := jf.name, value := v } = false)) :
    ((run_tickW collect writeOk now store st jobs).2.1.lastError).isSome = true ∧
    (run_tickW collect writeOk now store st jobs).2.2 =
      jobs.map (advanceIfDue now) ∧
    (∀ j v, j ∈ jobs → j.nextDue ≤ now → collect j.name = CollectResult.ok v →
      writeOk { collected_at := now, source := j.name, value := v } = true →
      ({ collected_at := now, source := j.name, value := v } : Observation)
        ∈ (run_tickW collect writeOk now store st jobs).1.rows) ∧
    (run_tickW collect writeOk now store st jobs).2.1.running = st.running ∧
    (∀ s2 src t0 t1, QueryFacade.get s2 src t0 t1 = Except.error "QueryError" ∨
      QueryFacade.get s2 src t0 t1 = Except.ok (Store.query s2 src t0 t1)) := by
  refine ⟨run_tickW_fail_recorded collect writeOk now store st jobs jf hjf hdue hfail,
    run_tickW_jobs collect writeOk now store st jobs,
    fun j v hj hd hok hw =>
      run_tickW_success_committed collect writeOk now store st jobs j v hj hd hok hw,
    run_tickW_running collect writeOk now store st jobs,
    fun s2 src t0 t1 => ?_⟩
  unfold QueryFacade.get
  by_cases h : t1 < t0
  · exact Or.inl (if_pos h)
  · exact Or.inr (if_neg h)

/-- Witness for C5: three due jobs at time 0; the middle one times out,
the mem job's write fails, the cpu job's Observation still commits, all
three advance, and the loop keeps its running flag. -/
theorem tick_isolates_failures_witness :
    ((run_tickW wCollect wWriteOk 0 emptyStore wSt wJobs).2.1.lastError).isSome = true ∧
    (run_tickW wCollect wWriteOk 0 emptyStore wSt wJobs).2.2 =
      wJobs.map (advanceIfDue 0) ∧
    (∀ j v, j ∈ wJobs → j.nextDue ≤ 0 → wCollect j.name = CollectResult.ok v →
      wWriteOk { collected_at := 0, source := j.name, value := v } = true →
      ({ collected_at := 0, source := j.name, value := v } : Observation)
        ∈ (run_tickW wCollect wWriteOk 0 emptyStore wSt wJobs).1.rows) ∧
    (run_tickW wCollect wWriteOk 0 emptyStore wSt wJobs).2.1.running = wSt.running ∧
    (∀ s2 src t0 t1, QueryFacade.get s2 src t0 t1 = Except.error "QueryError" ∨
      QueryFacade.get s2 src t0 t1 = Except.ok (Store.query s2 src t0 t1)) :=
  tick_isolates_failures wCollect wWriteOk 0 emptyStore wSt wJobs
    { name := "bad", interval := 5, nextDue := 0 }
    (by decide) (by decide)
    (Or.inl (by intro v h; simp [wCollect] at h))

/-- A due job's next due time advances by its interval from the previous
due time, independent of the tick's actual time. -/
theorem runJob_job_due (collect : String → CollectResult) (now : Nat)
    (store : StoreState) (st : SamplerState) (j : SampleJob)
    (hdue : j.nextDue ≤ now) :
    (runJob collect now store st j).2.2 =
      { j with nextDue := j.nextDue + j.interval } := by
  unfold runJob
  rw [if_pos hdue]
  cases hc : collect j.name <;> rfl

/-- With no missed ticks, a single job's schedule after the ticks is
exactly the start time plus one interval per tick. -/
theorem runTicks_single_schedule (collect : String → CollectResult)
    (I : Nat) (nm : String) :
    ∀ (ts : List Nat) (store : StoreState) (st : SamplerState) (t0 : Nat),
      keepsDue t0 I ts = true →
      (runTicks collect store st [{ name := nm, interval := I, nextDue := t0 }] ts).2.2 =
        [{ name := nm, interval := I, nextDue := t0 + ts.length * I }] := by
  intro ts
  induction ts with
  | nil =>
    intro store st t0 h
    simp [runTicks]
  | cons now ts ih =>
    intro store st t0 h
    rw [keepsDue, Bool.and_eq_true, decide_eq_true_eq] at h
    obtain ⟨hdue, hrest⟩ := h
    have hjob : (runJob collect now store st { name := nm, interval := I, nextDue := t0 }).2.2
        = { name := nm, interval := I, nextDue := t0 + I } :=
      runJob_job_due collect now store st _ hdue
    show (runTicks collect
        (runJob collect now store st { name := nm, interval := I, nextDue := t0 }).1
        { (runJob collect now store st { name := nm, interval := I, nextDue := t0 }).2.1 with lastTickAt := now }
        [(runJob collect now store st { name := nm, interval := I, nextDue := t0 }).2.2] ts).2.2
      = [{ name := nm, interval := I, nextDue := t0 + (now :: ts).length * I }]
    rw [hjob, ih _ _ (t0 + I) hrest]
    have harith : t0 + I + ts.length * I = t0 + (ts.length + 1) * I := by ring
    simp [List.length_cons, harith]

/-- C6: a due job's next due time is computed as last_due + interval,
never now + interval; hence over any no-missed-tick schedule a job
started at t0 with interval I is scheduled at exactly t0 + n * I after n
ticks, with no drift accumulated from tick overhead. -/
theorem schedule_no_drift (collect : String → CollectResult) (now : Nat)
    (store : StoreState) (st : SamplerState) (j : SampleJob)
    (hdue : j.nextDue ≤ now)
    (store2 : StoreState) (st2 : SamplerState) (nm : String) (I t0 : Nat)
    (ts : List Nat) (hts : keepsDue t0 I ts = true) :
    (runJob collect now store st j).2.2.nextDue = j.nextDue + j.interval ∧
    (runTicks collect store2 st2 [{ name := nm, interval := I, nextDue := t0 }] ts).2.2 =
      [{ name := nm, interval := I, nextDue := t0 + ts.length * I }] := by
  constructor
  · rw [runJob_job_due collect now store st j hdue]
  · exact runTicks_single_schedule collect I nm ts store2 st2 t0 hts

/-- Witness for C6: a job due at 1 run at time 3 advances to 3, and a
job with interval 5 started at 0, ticked at the late times 0, 6, 11, is
scheduled at 15: no drift. -/
theorem schedule_no_drift_witness :
    (runJob wCollect 3 emptyStore wSt
      { name := "cpu", interval := 2, nextDue := 1 }).2.2.nextDue = 1 + 2 ∧
    (runTicks wCollect emptyStore wSt
        [{ name := "cpu", interval := 5, nextDue := 0 }] [0, 6, 11]).2.2 =
      [{ name := "cpu", interval := 5, nextDue := 0 + 3 * 5 }] :=
  schedule_no_drift wCollect 3 emptyStore wSt
    { name := "cpu", interval := 2, nextDue := 1 } (by decide)
    emptyStore wSt "cpu" 5 0 [0, 6, 11] (by decide)

/-- Every Observation in any query result of a trace is either already
in the starting store or was committed by an append of the trace. -/
theorem runOps_committed (ops : List StoreOp) :
    ∀ (s : StoreState) (res : List Observation) (o : Observation),
      res ∈ (runOps s ops).2 → o ∈ res → o ∈ s.rows ∨ o ∈ appendsOf ops := by
  induction ops with
  | nil =>
    intro s res o hres _
    simp [runOps] at hres
  | cons op rest ih =>
    intro s res o hres ho
    cases op with
    | doAppend a =>
      have happ2 : appendsOf (StoreOp.doAppend a :: rest) = a :: appendsOf rest := rfl
      rcases ih (Store.append s a) res o hres ho with hmem | happ
      · rcases List.mem_append.mp (show o ∈ s.rows ++ [a] from hmem) with h | h
        · exact Or.inl h
        · rw [happ2]
          exact Or.inr (List.mem_cons.mpr (Or.inl (List.mem_singleton.mp h)))
      · rw [happ2]
        exact Or.inr (List.mem_cons.mpr (Or.inr happ))
    | doQuery src t0 t1 =>
      have hres2 : res ∈ Store.query s src t0 t1 :: (runOps s rest).2 := hres
      rcases List.mem_cons.mp hres2 with rfl | hmem
      · exact Or.inl ((mem_query s src t0 t1 o).mp ho).1
      · rcases ih s res o hmem ho with h | h
        · exact Or.inl h
        · exact Or.inr h

/-- C7: for every interleaving of append and query calls starting from
the empty store, every Observation appearing in any query result was
committed by an append of the trace: a reader never observes a
partially-written row. -/
theorem queries_see_only_committed (ops : List StoreOp)
    (res : List Observation) (o : Observation)
    (hres : res ∈ (runOps emptyStore ops).2) (ho : o ∈ res) :
    o ∈ appendsOf ops := by
  rcases runOps_committed ops emptyStore res o hres ho with h | h
  · simp [emptyStore] at h
  · exact h

/-- Witness for C7: one append then one query; the single row the query
returns is the appended one. -/
theorem queries_see_only_committed_witness :
    ({ collected_at := 1, source := "cpu", value := 42 } : Observation) ∈
      appendsOf [StoreOp.doAppend { collected_at := 1, source := "cpu", value := 42 },
                 StoreOp.doQuery "cpu" 0 9] :=
  queries_see_only_committed
    [StoreOp.doAppend { collected_at := 1, source := "cpu", value := 42 },
     StoreOp.doQuery "cpu" 0 9]
    (Store.query
      (Store.append emptyStore { collected_at := 1, source := "cpu", value := 42 })
      "cpu" 0 9)
    { collected_at := 1, source := "cpu", value := 42 }
    (List.mem_cons_self _ _)
    ((mem_query _ _ _ _ _).mpr (by decide))
